import Mathlib

/-!
Verification of the cache-simulator orchestration module
(src/src/cache_simulator.py) against its specification.

The module drives a multi-level cache simulation: it builds the level
hierarchy from a configuration (build_hierarchy, build_cache), replays a
trace of read and write instructions against the top level (simulate),
and computes per-level AMAT from the recorded per-access outcomes
(analyze_results, compute_amat).

Embedding conventions:
- Python dicts keyed by strings become association lists with
  update-or-append insertion (alinsert) and first-match lookup (alookup);
  the dicts in the program never hold duplicate keys, so this matches
  dict semantics.
- Python float arithmetic in the AMAT computation becomes exact rational
  arithmetic over the rationals.
- The Cache class lives in the cache module, which is not part of the
  given sources; its record shape is modelled from the spec (section 3,
  data model of CacheLevel).  A level whose next_level is None (main
  memory) is the Level.mem constructor; any other level is Level.cache
  carrying its next level, so the Option-valued next_level field of the
  Python object is recovered by Level.next_level.
- The mutable default argument results={} of compute_amat is one dict
  object shared by every call that does not pass results explicitly; in
  the program every call (the top-level call in analyze_results and both
  recursive calls) uses the default, so all of them read and write the
  same dict.  The embedding threads that dict explicitly: compute_amat
  takes the dict state before the call and returns its state after,
  which is also the Python return value (the function returns results
  itself).
-/

/-- One entry of a level configuration in the YAML config: blocks,
associativity and hit_time, as read by build_cache. -/
structure LevelConfig where
  blocks : Int
  associativity : Int
  hit_time : ℚ
  deriving Repr, DecidableEq

/-- The architecture section of the config: word_size, block_size and the
process-wide write_back flag. -/
structure ArchConfig where
  word_size : Int
  block_size : Int
  write_back : Bool
  deriving Repr, DecidableEq

/-- The configuration mapping consumed by build_hierarchy: mem and
cache_1 are mandatory, cache_2..cache_4 are optional keys. -/
structure Configs where
  architecture : ArchConfig
  mem_conf : LevelConfig
  cache_1_conf : LevelConfig
  cache_2_conf : Option LevelConfig
  cache_3_conf : Option LevelConfig
  cache_4_conf : Option LevelConfig
  deriving Repr, DecidableEq

/-- Modelled from the spec: the Cache class of the cache module (not
among the given sources).  Per the spec data model, a level carries a
name, word and block sizes, block count and associativity, a hit time,
the process-wide write_back flag, and an optional reference to the next
slower level; main memory is the terminal level with no next_level.  The
terminal level (next_level absent, Python None) is the mem constructor;
every other level is the cache constructor holding its next level. -/
inductive Level where
  | mem (name : String) (word_size block_size num_blocks associativity : Int)
      (hit_time : ℚ) (write_back : Bool)
  | cache (name : String) (word_size block_size num_blocks associativity : Int)
      (hit_time : ℚ) (write_back : Bool) (next : Level)
  deriving Repr, DecidableEq

/-- The name field of a level. -/
def Level.name : Level → String
  | .mem n _ _ _ _ _ _ => n
  | .cache n _ _ _ _ _ _ _ => n

/-- The hit_time field of a level. -/
def Level.hit_time : Level → ℚ
  | .mem _ _ _ _ _ ht _ => ht
  | .cache _ _ _ _ _ ht _ _ => ht

/-- The next_level field of a level: None for main memory, the next
slower level otherwise. -/
def Level.next_level : Level → Option Level
  | .mem _ _ _ _ _ _ _ => none
  | .cache _ _ _ _ _ _ _ next => some next

/-- The names along the next_level chain starting at a level, ending at
the terminal level (main memory). -/
def Level.chain_names : Level → List String
  | .mem n _ _ _ _ _ _ => [n]
  | .cache n _ _ _ _ _ _ next => n :: next.chain_names

/-- First-match lookup in an association list, the embedding of Python
dict indexing and the `in dict.keys()` test. -/
def alookup {α : Type} : List (String × α) → String → Option α
  | [], _ => none
  | (k, v) :: rest, key => if k = key then some v else alookup rest key

/-- Update-or-append insertion in an association list, the embedding of
Python dict assignment d[k] = v. -/
def alinsert {α : Type} : List (String × α) → String → α → List (String × α)
  | [], key, v => [(key, v)]
  | (k, w) :: rest, key, v =>
      if k = key then (key, v) :: rest else (k, w) :: alinsert rest key v

/-- One per-access outcome record returned by the cache for a single
instruction: the hit_list dict (level name to hit flag) and the total
cycle time. -/
structure Response where
  hit_list : List (String × Bool)
  time : ℚ
  deriving Repr, DecidableEq

/-- The results accumulator of compute_amat: a dict from level name to
its computed AMAT. -/
abbrev Results := List (String × ℚ)

/-- The number of responses whose hit_list mentions the given level
name: the n_access counter of compute_amat. -/
def n_access (name : String) (responses : List Response) : ℕ :=
  responses.countP (fun r => (alookup r.hit_list name).isSome)

/-- The number of responses whose hit_list records a miss (value False)
for the given level name: the n_miss counter of compute_amat. -/
def n_miss (name : String) (responses : List Response) : ℕ :=
  responses.countP (fun r => alookup r.hit_list name = some false)

/-- The compute_amat function of cache_simulator.py with the shared
default results dict threaded explicitly.  Main memory gets its fixed
hit time; a cache level counts its accesses and misses over the
responses, recurses into the next level, and stores
hit_time + miss_rate * amat(next level) (or 0 times that value when the
level was never accessed).  The dict index into the recursive result is
embedded as lookup with default 0; the lookup never misses (the
recursive call always stores an entry for the next level). -/
def compute_amat : Level → List Response → Results → Results
  | .mem n _ _ _ _ ht _, _, results => alinsert results n ht
  | .cache n _ _ _ _ ht _ next, responses, results =>
      if 0 < n_access n responses then
        let miss_rate : ℚ := (n_miss n responses : ℚ) / (n_access n responses : ℚ)
        let results1 := compute_amat next responses results
        alinsert results1 n
          (ht + miss_rate * ((alookup results1 next.name).getD 0))
      else
        let results1 := compute_amat next responses results
        alinsert results1 n (0 * ((alookup results1 next.name).getD 0))

theorem alookup_alinsert_self {α : Type} (l : List (String × α)) (k : String) (v : α) :
    alookup (alinsert l k v) k = some v := by
  induction l with
  | nil => simp [alinsert, alookup]
  | cons p rest ih =>
      obtain ⟨k1, w⟩ := p
      by_cases h : k1 = k
      · simp [alinsert, h, alookup]
      · simp [alinsert, h, alookup, ih]

theorem compute_amat_assigns (level : Level) (responses : List Response)
    (results : Results) :
    ∃ v, alookup (compute_amat level responses results) level.name = some v := by
  cases level with
  | mem n ws bs nb assoc ht wb =>
      exact ⟨ht, alookup_alinsert_self ..⟩
  | cache n ws bs nb assoc ht wb next =>
      by_cases h : 0 < n_access n responses
      · simp only [compute_amat, if_pos h, Level.name]
        exact ⟨_, alookup_alinsert_self ..⟩
      · simp only [compute_amat, if_neg h, Level.name]
        exact ⟨_, alookup_alinsert_self ..⟩

/-- C1: for a level with a next level and at least one access recorded
for it, compute_amat stores hit_time + (n_miss / n_access) * v for the
level, where v is the value the same pass stores for the next level. -/
theorem compute_amat_recursive_case (level next : Level)
    (h : level.next_level = some next)
    (responses : List Response) (results : Results)
    (hacc : 0 < n_access level.name responses) :
    ∃ v, alookup (compute_amat next responses results) next.name = some v ∧
      alookup (compute_amat level responses results) level.name =
        some (level.hit_time +
          ((n_miss level.name responses : ℚ) / (n_access level.name responses : ℚ)) * v) := by
  cases level with
  | mem n ws bs nb assoc ht wb => simp [Level.next_level] at h
  | cache n ws bs nb assoc ht wb nx =>
      simp only [Level.next_level, Option.some.injEq] at h
      subst h
      simp only [Level.name, Level.hit_time] at hacc ⊢
      obtain ⟨v, hv⟩ := compute_amat_assigns nx responses results
      refine ⟨v, hv, ?_⟩
      simp only [compute_amat, if_pos hacc, hv, Option.getD_some]
      exact alookup_alinsert_self ..

/-- C1 witness: a two-level hierarchy with one recorded miss at the
cache level; the stored AMAT is 1 + (1/1) * 100. -/
theorem compute_amat_recursive_case_witness :
    (Level.cache "cache_1" 8 8 4 1 1 true
        (Level.mem "mem" 8 8 (-1) (-1) 100 true)).next_level =
      some (Level.mem "mem" 8 8 (-1) (-1) 100 true) ∧
    0 < n_access (Level.cache "cache_1" 8 8 4 1 1 true
        (Level.mem "mem" 8 8 (-1) (-1) 100 true)).name
        [⟨[("cache_1", false), ("mem", true)], 101⟩] ∧
    ∃ v, alookup (compute_amat (Level.mem "mem" 8 8 (-1) (-1) 100 true)
          [⟨[("cache_1", false), ("mem", true)], 101⟩] []) "mem" = some v ∧
      alookup (compute_amat
          (Level.cache "cache_1" 8 8 4 1 1 true
            (Level.mem "mem" 8 8 (-1) (-1) 100 true))
          [⟨[("cache_1", false), ("mem", true)], 101⟩] [])
          (Level.cache "cache_1" 8 8 4 1 1 true
            (Level.mem "mem" 8 8 (-1) (-1) 100 true)).name =
        some ((Level.cache "cache_1" 8 8 4 1 1 true
            (Level.mem "mem" 8 8 (-1) (-1) 100 true)).hit_time +
          ((n_miss "cache_1" [⟨[("cache_1", false), ("mem", true)], 101⟩] : ℚ) /
            (n_access "cache_1" [⟨[("cache_1", false), ("mem", true)], 101⟩] : ℚ)) * v) :=
  ⟨rfl, by decide,
    compute_amat_recursive_case
      (Level.cache "cache_1" 8 8 4 1 1 true (Level.mem "mem" 8 8 (-1) (-1) 100 true))
      (Level.mem "mem" 8 8 (-1) (-1) 100 true) rfl
      [⟨[("cache_1", false), ("mem", true)], 101⟩] [] (by decide)⟩

/-- C2: for a terminal level (main memory, next_level absent),
compute_amat stores exactly the hit time, whatever the responses. -/
theorem compute_amat_base_case (level : Level) (h : level.next_level = none)
    (responses : List Response) (results : Results) :
    alookup (compute_amat level responses results) level.name =
      some level.hit_time := by
  cases level with
  | mem n ws bs nb assoc ht wb =>
      simp only [compute_amat, Level.name, Level.hit_time]
      exact alookup_alinsert_self ..
  | cache n ws bs nb assoc ht wb nx => simp [Level.next_level] at h

/-- C2 witness: main memory with hit time 100 and a nonempty response
list that mentions it. -/
theorem compute_amat_base_case_witness :
    (Level.mem "mem" 8 8 (-1) (-1) 100 true).next_level = none ∧
    alookup (compute_amat (Level.mem "mem" 8 8 (-1) (-1) 100 true)
        [⟨[("mem", true)], 100⟩] []) (Level.mem "mem" 8 8 (-1) (-1) 100 true).name =
      some (Level.mem "mem" 8 8 (-1) (-1) 100 true).hit_time :=
  ⟨rfl, compute_amat_base_case (Level.mem "mem" 8 8 (-1) (-1) 100 true) rfl
    [⟨[("mem", true)], 100⟩] []⟩

/-- C3: for a level with a next level that no response ever mentions,
compute_amat stores the value 0 (the code stores 0 times the next
AMAT, which is the rational 0, not an error or NaN). -/
theorem compute_amat_zero_access (level next : Level)
    (h : level.next_level = some next)
    (responses : List Response) (results : Results)
    (hz : n_access level.name responses = 0) :
    alookup (compute_amat level responses results) level.name = some 0 := by
  cases level with
  | mem n ws bs nb assoc ht wb => simp [Level.next_level] at h
  | cache n ws bs nb assoc ht wb nx =>
      simp only [Level.name] at hz
      have hnot : ¬ 0 < n_access n responses := by omega
      simp only [compute_amat, if_neg hnot, Level.name, zero_mul]
      exact alookup_alinsert_self ..

/-- C3 witness: a two-level hierarchy where every response hit at an
upper level, so the cache level named cache_2 is never mentioned. -/
theorem compute_amat_zero_access_witness :
    (Level.cache "cache_2" 8 8 4 1 5 true
        (Level.mem "mem" 8 8 (-1) (-1) 100 true)).next_level =
      some (Level.mem "mem" 8 8 (-1) (-1) 100 true) ∧
    n_access (Level.cache "cache_2" 8 8 4 1 5 true
        (Level.mem "mem" 8 8 (-1) (-1) 100 true)).name
        [⟨[("cache_1", true)], 1⟩, ⟨[("cache_1", true)], 1⟩] = 0 ∧
    alookup (compute_amat
        (Level.cache "cache_2" 8 8 4 1 5 true
          (Level.mem "mem" 8 8 (-1) (-1) 100 true))
        [⟨[("cache_1", true)], 1⟩, ⟨[("cache_1", true)], 1⟩] [])
        (Level.cache "cache_2" 8 8 4 1 5 true
          (Level.mem "mem" 8 8 (-1) (-1) 100 true)).name = some 0 :=
  ⟨rfl, by decide,
    compute_amat_zero_access
      (Level.cache "cache_2" 8 8 4 1 5 true (Level.mem "mem" 8 8 (-1) (-1) 100 true))
      (Level.mem "mem" 8 8 (-1) (-1) 100 true) rfl
      [⟨[("cache_1", true)], 1⟩, ⟨[("cache_1", true)], 1⟩] [] (by decide)⟩

/-- Checked rational division: fails (like a Python ZeroDivisionError)
when the denominator is zero, otherwise the exact quotient. -/
def qdiv_checked (a b : ℚ) : Option ℚ :=
  if b = 0 then none else some (a / b)

/-- The compute_amat function with its single division routed through
qdiv_checked, so that a division by zero would surface as a None result
instead of being absorbed by total rational division.  Everything else
mirrors compute_amat. -/
def compute_amat_checked : Level → List Response → Results → Option Results
  | .mem n _ _ _ _ ht _, _, results => some (alinsert results n ht)
  | .cache n _ _ _ _ ht _ next, responses, results =>
      if 0 < n_access n responses then
        (qdiv_checked (n_miss n responses : ℚ) (n_access n responses : ℚ)).bind
          (fun miss_rate =>
            (compute_amat_checked next responses results).map
              (fun results1 => alinsert results1 n
                (ht + miss_rate * ((alookup results1 next.name).getD 0))))
      else
        (compute_amat_checked next responses results).map
          (fun results1 => alinsert results1 n (0 * ((alookup results1 next.name).getD 0)))

/-- C10: the division in compute_amat only runs under the guard
n_access > 0, so the checked variant never fails: on every hierarchy,
response list (including the empty one) and accumulator state it
succeeds and agrees with compute_amat. -/
theorem compute_amat_never_divides_by_zero (level : Level)
    (responses : List Response) (results : Results) :
    compute_amat_checked level responses results =
      some (compute_amat level responses results) := by
  induction level generalizing results with
  | mem n ws bs nb assoc ht wb => rfl
  | cache n ws bs nb assoc ht wb next ih =>
      by_cases h : 0 < n_access n responses
      · have hne : (n_access n responses : ℚ) ≠ 0 := (Nat.cast_pos.mpr h).ne'
        simp [compute_amat_checked, compute_amat, if_pos h, qdiv_checked, hne, ih]
      · simp [compute_amat_checked, compute_amat, if_neg h, ih]

/-- First of two single-level hierarchies used to exhibit the shared
default-dict state of compute_amat. -/
def hierA : Level :=
  Level.cache "c1A" 8 8 4 1 1 true (Level.mem "memA" 8 8 (-1) (-1) 100 true)

/-- Second hierarchy, with level names disjoint from hierA. -/
def hierB : Level :=
  Level.cache "c1B" 8 8 4 1 2 true (Level.mem "memB" 8 8 (-1) (-1) 50 true)

/-- C8: the results accumulator is the mutable default argument
results={}, one object shared by every top-level call.  A second
top-level call therefore starts from the dict state the first call left
behind (second conjunct threads it), and its returned mapping still
contains the first hierarchy's entries (c1A), which are absent when the
second call's arguments are evaluated from a fresh dict: the return
value is not a function of the second call's arguments alone. -/
theorem compute_amat_default_arg_leak :
    alookup (compute_amat hierB [] (compute_amat hierA [] [])) "c1A" = some 0 ∧
    alookup (compute_amat hierB [] (compute_amat hierA [] [])) "memA" = some 100 ∧
    alookup (compute_amat hierB [] []) "c1A" = none ∧
    alookup (compute_amat hierB [] []) "memA" = none := by
  refine ⟨?_, ?_, ?_, ?_⟩ <;>
    simp [hierA, hierB, compute_amat, n_access, n_miss, alinsert, alookup]

/-- The per-level entries of the config as indexed by build_cache:
configs[name] for the names build_hierarchy actually passes.  Optional
levels are only indexed after build_hierarchy has checked their
presence, so the default on the getD branch is never read. -/
def Configs.conf (c : Configs) (name : String) : LevelConfig :=
  if name = "mem" then c.mem_conf
  else if name = "cache_1" then c.cache_1_conf
  else if name = "cache_2" then c.cache_2_conf.getD ⟨0, 0, 0⟩
  else if name = "cache_3" then c.cache_3_conf.getD ⟨0, 0, 0⟩
  else c.cache_4_conf.getD ⟨0, 0, 0⟩

/-- The build_cache function of cache_simulator.py: constructs one
Cache with the architecture word size, block size and write_back flag,
the level's block count and associativity (or -1 for mem), its hit
time, and the given next level (None only for mem). -/
def build_cache (configs : Configs) (name : String)
    (next_level_cache : Option Level) : Level :=
  match next_level_cache with
  | none =>
      Level.mem name configs.architecture.word_size configs.architecture.block_size
        (if name ≠ "mem" then (configs.conf name).blocks else -1)
        (if name ≠ "mem" then (configs.conf name).associativity else -1)
        (configs.conf name).hit_time configs.architecture.write_back
  | some next =>
      Level.cache name configs.architecture.word_size configs.architecture.block_size
        (if name ≠ "mem" then (configs.conf name).blocks else -1)
        (if name ≠ "mem" then (configs.conf name).associativity else -1)
        (configs.conf name).hit_time configs.architecture.write_back next

/-- The build_hierarchy function of cache_simulator.py: builds mem
first, then cache_4, cache_3 and cache_2 when their keys are present in
the config, each chained onto the previously built level, and finally
the mandatory cache_1; returns the name-to-level mapping in insertion
order. -/
def build_hierarchy (configs : Configs) : List (String × Level) :=
  let main_memory := build_cache configs "mem" none
  let hierarchy := [("mem", main_memory)]
  let prev_level := main_memory
  let st4 :=
    if configs.cache_4_conf.isSome then
      let cache_4 := build_cache configs "cache_4" (some prev_level)
      (hierarchy ++ [("cache_4", cache_4)], cache_4)
    else (hierarchy, prev_level)
  let st3 :=
    if configs.cache_3_conf.isSome then
      let cache_3 := build_cache configs "cache_3" (some st4.2)
      (st4.1 ++ [("cache_3", cache_3)], cache_3)
    else st4
  let st2 :=
    if configs.cache_2_conf.isSome then
      let cache_2 := build_cache configs "cache_2" (some st3.2)
      (st3.1 ++ [("cache_2", cache_2)], cache_2)
    else st3
  let cache_1 := build_cache configs "cache_1" (some st2.2)
  st2.1 ++ [("cache_1", cache_1)]

/-- C4: in every built hierarchy the mapping contains cache_1, whose
next_level chain passes through exactly the optional levels present in
the config, in ascending numeric order, and terminates at mem; the
mapping also contains mem, whose next_level is None. -/
theorem build_hierarchy_chain (configs : Configs) :
    ∃ c1 m, alookup (build_hierarchy configs) "cache_1" = some c1 ∧
      c1.chain_names = "cache_1" ::
        ((if configs.cache_2_conf.isSome then ["cache_2"] else []) ++
         (if configs.cache_3_conf.isSome then ["cache_3"] else []) ++
         (if configs.cache_4_conf.isSome then ["cache_4"] else []) ++ ["mem"]) ∧
      alookup (build_hierarchy configs) "mem" = some m ∧
      m.next_level = none := by
  obtain ⟨arch, memc, c1c, c2c, c3c, c4c⟩ := configs
  cases c2c <;> cases c3c <;> cases c4c <;>
    simp [build_hierarchy, build_cache, alookup, Level.chain_names, Level.next_level]

/-- The names bound at top level of cache_simulator.py: the imported
modules and names, and the functions the module defines. -/
def module_top_level_names : List String :=
  ["yaml", "cache", "argparse", "logging", "pprint", "UnixTable",
   "main", "print_cache", "simulate", "analyze_results", "compute_amat",
   "build_hierarchy", "build_cache"]

/-- Python builtin exception classes a bare name could resolve to. -/
def python_builtin_names : List String :=
  ["Exception", "ValueError", "NameError", "TypeError", "KeyError",
   "ZeroDivisionError", "RuntimeError", "StopIteration", "IndexError",
   "AttributeError"]

/-- The distinguishable outcomes of an aborted Python run: an instance
of a resolvable exception class raised by name, a NameError because the
raised name resolves nowhere, or a builtin error raised by the runtime
itself. -/
inductive PyError where
  | raised (cls : String)
  | nameError (missing : String)
  deriving Repr, DecidableEq

/-- Evaluation of a raise statement on a bare name: if the name is
bound in the module scope or is a builtin, an instance of that class is
raised; otherwise evaluating the name itself fails with NameError. -/
def raise_stmt (n : String) : PyError :=
  if n ∈ module_top_level_names ++ python_builtin_names then PyError.raised n
  else PyError.nameError n

/-- Whitespace tokenizer over a character list, the embedding of the
Python str.split() call with no arguments: runs of spaces and tabs
separate tokens, empty tokens are dropped.  The accumulator holds the
characters of the current token in reverse. -/
def split_tokens_aux : List Char → List Char → List String
  | [], acc => if acc.isEmpty then [] else [String.mk acc.reverse]
  | c :: rest, acc =>
      if c = ' ' ∨ c = '\t' then
        (if acc.isEmpty then [] else [String.mk acc.reverse]) ++ split_tokens_aux rest []
      else split_tokens_aux rest (c :: acc)

/-- The token list of one trace line, as produced by instruction.split()
in the simulate loop. -/
def parse_line (s : String) : List String :=
  split_tokens_aux s.data []

/-- The test item.startswith of the hash character, applied in main to
drop comment lines from the trace. -/
def starts_with_hash (s : String) : Bool :=
  match s.data with
  | [] => false
  | c :: _ => c = '#'

/-- The comment filter of main: trace lines starting with a hash are
removed before simulate runs. -/
def filter_comments (trace : List String) : List String :=
  trace.filter (fun item => !(starts_with_hash item))

/-- A trace line that splits into exactly an address token and an op
token from the set R, W. -/
def line_well_formed (s : String) : Bool :=
  (parse_line s).length == 2 &&
    (((parse_line s).getD 1 "") == "R" || ((parse_line s).getD 1 "") == "W")

/-- A trace line that splits into exactly two tokens whose op token is
neither R nor W. -/
def line_bad_op (s : String) : Bool :=
  (parse_line s).length == 2 &&
    !(((parse_line s).getD 1 "") == "R" || ((parse_line s).getD 1 "") == "W")

/-- The instruction loop of simulate in cache_simulator.py,
parameterized by the behavior of the cache object the loop drives: σ is
the mutable state of the hierarchy, read and write are the l1.read and
l1.write methods (argument order as at the call sites: address and step
for read; address, True and step for write), each returning the
successor state and the response record the loop appends.  The loop
runs current_step over trace positions in order; an op other than R or
W evaluates the raise statement on the unbound name InvalidOpError, and
a line that does not split into two tokens fails tuple unpacking with a
ValueError. -/
def simulate_loop {σ : Type} (read : σ → String → ℕ → σ × Response)
    (write : σ → String → Bool → ℕ → σ × Response) :
    σ → ℕ → List String → Except PyError (List Response)
  | _, _, [] => Except.ok []
  | st, step, line :: rest =>
      match parse_line line with
      | [address, op] =>
          if op = "R" then
            let p := read st address step
            (simulate_loop read write p.1 (step + 1) rest).map (fun rs => p.2 :: rs)
          else if op = "W" then
            let p := write st address true step
            (simulate_loop read write p.1 (step + 1) rest).map (fun rs => p.2 :: rs)
          else Except.error (raise_stmt "InvalidOpError")
      | _ => Except.error (PyError.raised "ValueError")

/-- The response list simulate accumulates over a trace, starting at
step 0 with the initial cache state. -/
def simulate_responses {σ : Type} (read : σ → String → ℕ → σ × Response)
    (write : σ → String → Bool → ℕ → σ × Response) (st : σ)
    (trace : List String) : Except PyError (List Response) :=
  simulate_loop read write st 0 trace

/-- The statistics analyze_results reports from a completed run: the
instruction count, the summed cycle time, and the AMAT mapping from
compute_amat applied to cache_1 (fresh default dict state). -/
structure Analysis where
  n_instructions : ℕ
  total_time : ℚ
  amat : Results
  deriving Repr, DecidableEq

/-- The analyze_results function: counts instructions, sums times, and
computes the AMAT mapping starting from the hierarchy's cache_1. -/
def analyze_results (hierarchy : List (String × Level))
    (responses : List Response) : Except PyError Analysis :=
  match alookup hierarchy "cache_1" with
  | some l1 =>
      Except.ok
        ⟨responses.length, (responses.map Response.time).sum,
          compute_amat l1 responses []⟩
  | none => Except.error (PyError.raised "KeyError")

/-- The simulate function: runs the instruction loop and, only when the
whole trace completed, hands the responses to analyze_results. -/
def simulate {σ : Type} (read : σ → String → ℕ → σ × Response)
    (write : σ → String → Bool → ℕ → σ × Response) (st : σ)
    (hierarchy : List (String × Level)) (trace : List String) :
    Except PyError Analysis :=
  (simulate_loop read write st 0 trace).bind
    (fun responses => analyze_results hierarchy responses)

/-- Second definition, following the spec words, for the refinement
claim about the simulate loop: one access per line, in order, with the
step index equal to the line position; a W op line issues one write
call, any other (assumed R) line issues one read call, and exactly one
response record is appended per line. -/
def spec_access_list {σ : Type} (read : σ → String → ℕ → σ × Response)
    (write : σ → String → Bool → ℕ → σ × Response) :
    σ → ℕ → List String → List Response
  | _, _, [] => []
  | st, step, line :: rest =>
      let address := (parse_line line).getD 0 ""
      let op := (parse_line line).getD 1 ""
      let p := if op = "W" then write st address true step else read st address step
      p.2 :: spec_access_list read write p.1 (step + 1) rest

theorem spec_access_list_length {σ : Type} (read : σ → String → ℕ → σ × Response)
    (write : σ → String → Bool → ℕ → σ × Response) (st : σ) (step : ℕ)
    (l : List String) :
    (spec_access_list read write st step l).length = l.length := by
  induction l generalizing st step with
  | nil => rfl
  | cons line rest ih => simp [spec_access_list, ih]

theorem simulate_loop_ok_of_well_formed {σ : Type}
    (read : σ → String → ℕ → σ × Response)
    (write : σ → String → Bool → ℕ → σ × Response)
    (l : List String) (hwf : ∀ s ∈ l, line_well_formed s = true) :
    ∀ st step, simulate_loop read write st step l =
      Except.ok (spec_access_list read write st step l) := by
  induction l with
  | nil => intro st step; rfl
  | cons line rest ih =>
      intro st step
      have hline := hwf line (by simp)
      have hrest : ∀ s ∈ rest, line_well_formed s = true :=
        fun s hs => hwf s (by simp [hs])
      rw [line_well_formed] at hline
      cases hp : parse_line line with
      | nil => rw [hp] at hline; simp at hline
      | cons a tl =>
          cases tl with
          | nil => rw [hp] at hline; simp at hline
          | cons op tl2 =>
              cases tl2 with
              | cons c tl3 => rw [hp] at hline; simp at hline
              | nil =>
                  rw [hp] at hline
                  simp only [List.length_cons, List.length_nil, beq_iff_eq,
                    List.getD, Bool.and_eq_true, beq_self_eq_true,
                    Bool.or_eq_true] at hline
                  have hop : op = "R" ∨ op = "W" := by
                    rcases hline with ⟨-, h | h⟩
                    · exact Or.inl (by simpa using h)
                    · exact Or.inr (by simpa using h)
                  rcases hop with h | h <;> subst h <;>
                    simp [simulate_loop, spec_access_list, hp, ih hrest, Except.map]

theorem simulate_loop_error_of_bad_op {σ : Type}
    (read : σ → String → ℕ → σ × Response)
    (write : σ → String → Bool → ℕ → σ × Response)
    (pre : List String) (bad : String) (rest : List String)
    (hpre : ∀ s ∈ pre, line_well_formed s = true)
    (hbad : line_bad_op bad = true) :
    ∀ st step, simulate_loop read write st step (pre ++ bad :: rest) =
      Except.error (raise_stmt "InvalidOpError") := by
  induction pre with
  | nil =>
      intro st step
      rw [line_bad_op] at hbad
      cases hp : parse_line bad with
      | nil => rw [hp] at hbad; simp at hbad
      | cons a tl =>
          cases tl with
          | nil => rw [hp] at hbad; simp at hbad
          | cons op tl2 =>
              cases tl2 with
              | cons c tl3 => rw [hp] at hbad; simp at hbad
              | nil =>
                  rw [hp] at hbad
                  simp only [List.length_cons, List.length_nil, beq_iff_eq,
                    List.getD, Bool.and_eq_true, Bool.not_eq_eq_eq_not,
                    Bool.or_eq_true, beq_self_eq_true] at hbad
                  have hR : op ≠ "R" := by
                    intro h; subst h; simp at hbad
                  have hW : op ≠ "W" := by
                    intro h; subst h; simp at hbad
                  simp [simulate_loop, hp, hR, hW]
  | cons line pre1 ih =>
      intro st step
      have hline := hpre line (by simp)
      have hpre1 : ∀ s ∈ pre1, line_well_formed s = true :=
        fun s hs => hpre s (by simp [hs])
      rw [line_well_formed] at hline
      cases hp : parse_line line with
      | nil => rw [hp] at hline; simp at hline
      | cons a tl =>
          cases tl with
          | nil => rw [hp] at hline; simp at hline
          | cons op tl2 =>
              cases tl2 with
              | cons c tl3 => rw [hp] at hline; simp at hline
              | nil =>
                  rw [hp] at hline
                  simp only [List.length_cons, List.length_nil, beq_iff_eq,
                    List.getD, Bool.and_eq_true, beq_self_eq_true,
                    Bool.or_eq_true] at hline
                  have hop : op = "R" ∨ op = "W" := by
                    rcases hline with ⟨-, h | h⟩
                    · exact Or.inl (by simpa using h)
                    · exact Or.inr (by simpa using h)
                  rcases hop with h | h <;> subst h <;>
                    simp [simulate_loop, hp, ih hpre1, Except.map]

/-- C5: a trace whose well-formed R and W lines are followed by a line
with an op outside R, W makes simulate abort with the raised error:
the instruction loop stops at that line with no response record for it
or any later line (the completed prefix alone yields one record per
line), and the full simulate call propagates the error instead of ever
reaching analyze_results, so no partial statistics are reported. -/
theorem simulate_aborts_on_invalid_op {σ : Type}
    (read : σ → String → ℕ → σ × Response)
    (write : σ → String → Bool → ℕ → σ × Response) (st : σ)
    (hierarchy : List (String × Level))
    (pre : List String) (bad : String) (rest : List String)
    (hpre : ∀ s ∈ pre, line_well_formed s = true)
    (hbad : line_bad_op bad = true) :
    simulate_responses read write st (pre ++ bad :: rest) =
      Except.error (raise_stmt "InvalidOpError") ∧
    simulate read write st hierarchy (pre ++ bad :: rest) =
      Except.error (raise_stmt "InvalidOpError") ∧
    ∃ rs, simulate_responses read write st pre = Except.ok rs ∧
      rs.length = pre.length := by
  have herr := simulate_loop_error_of_bad_op read write pre bad rest hpre hbad st 0
  refine ⟨herr, ?_, ?_⟩
  · simp [simulate, herr, Except.bind]
  · exact ⟨spec_access_list read write st 0 pre,
      by rw [simulate_responses, simulate_loop_ok_of_well_formed read write pre hpre],
      spec_access_list_length ..⟩

/-- C5 witness: the trace has one good read line, then a line with op
X, then a further line; the loop aborts at the X line. -/
theorem simulate_aborts_on_invalid_op_witness :
    (∀ s ∈ ["4 R"], line_well_formed s = true) ∧
    line_bad_op "8 X" = true ∧
    (simulate_responses (fun (st : Unit) _ _ => (st, ⟨[("cache_1", true)], 1⟩))
        (fun st _ _ _ => (st, ⟨[("cache_1", true)], 1⟩)) ()
        (["4 R"] ++ "8 X" :: ["12 R"]) =
      Except.error (raise_stmt "InvalidOpError") ∧
    simulate (fun (st : Unit) _ _ => (st, ⟨[("cache_1", true)], 1⟩))
        (fun st _ _ _ => (st, ⟨[("cache_1", true)], 1⟩)) () []
        (["4 R"] ++ "8 X" :: ["12 R"]) =
      Except.error (raise_stmt "InvalidOpError") ∧
    ∃ rs, simulate_responses (fun (st : Unit) _ _ => (st, ⟨[("cache_1", true)], 1⟩))
        (fun st _ _ _ => (st, ⟨[("cache_1", true)], 1⟩)) () ["4 R"] =
      Except.ok rs ∧ rs.length = ["4 R"].length) :=
  ⟨by decide, by decide,
    simulate_aborts_on_invalid_op
      (fun (st : Unit) _ _ => (st, ⟨[("cache_1", true)], 1⟩))
      (fun st _ _ _ => (st, ⟨[("cache_1", true)], 1⟩)) () []
      ["4 R"] "8 X" ["12 R"] (by decide) (by decide)⟩

/-- C6: comment lines are removed by the filter and so produce no
access and no record; on the remaining lines, when all are well-formed,
the simulate loop is exactly the reference process that issues one read
or write call per line in trace order with step index equal to the line
position, and returns one response record per line, in the same order
and number as the filtered trace. -/
theorem simulate_one_access_per_line {σ : Type}
    (read : σ → String → ℕ → σ × Response)
    (write : σ → String → Bool → ℕ → σ × Response) (st : σ)
    (trace : List String)
    (hwf : ∀ s ∈ filter_comments trace, line_well_formed s = true) :
    simulate_responses read write st (filter_comments trace) =
      Except.ok (spec_access_list read write st 0 (filter_comments trace)) ∧
    (spec_access_list read write st 0 (filter_comments trace)).length =
      (filter_comments trace).length ∧
    ∀ s ∈ trace, starts_with_hash s = true → s ∉ filter_comments trace := by
  refine ⟨simulate_loop_ok_of_well_formed read write _ hwf st 0,
    spec_access_list_length .., ?_⟩
  intro s _ hhash hmem
  rw [filter_comments, List.mem_filter] at hmem
  rw [hhash] at hmem
  simp at hmem

/-- C6 witness: a trace with a comment line, a read line and a write
line; the filtered trace has the two instruction lines. -/
theorem simulate_one_access_per_line_witness :
    (∀ s ∈ filter_comments ["# a comment", "4 R", "8 W"],
      line_well_formed s = true) ∧
    (simulate_responses (fun (st : ℕ) _ _ => (st + 1, ⟨[("cache_1", true)], 1⟩))
        (fun st _ _ _ => (st + 1, ⟨[("cache_1", false)], 51⟩)) 0
        (filter_comments ["# a comment", "4 R", "8 W"]) =
      Except.ok (spec_access_list
        (fun (st : ℕ) _ _ => (st + 1, ⟨[("cache_1", true)], 1⟩))
        (fun st _ _ _ => (st + 1, ⟨[("cache_1", false)], 51⟩)) 0 0
        (filter_comments ["# a comment", "4 R", "8 W"])) ∧
    (spec_access_list (fun (st : ℕ) _ _ => (st + 1, ⟨[("cache_1", true)], 1⟩))
        (fun st _ _ _ => (st + 1, ⟨[("cache_1", false)], 51⟩)) 0 0
        (filter_comments ["# a comment", "4 R", "8 W"])).length =
      (filter_comments ["# a comment", "4 R", "8 W"]).length ∧
    ∀ s ∈ ["# a comment", "4 R", "8 W"], starts_with_hash s = true →
      s ∉ filter_comments ["# a comment", "4 R", "8 W"]) :=
  ⟨by decide,
    simulate_one_access_per_line
      (fun (st : ℕ) _ _ => (st + 1, ⟨[("cache_1", true)], 1⟩))
      (fun st _ _ _ => (st + 1, ⟨[("cache_1", false)], 51⟩)) 0
      ["# a comment", "4 R", "8 W"] (by decide)⟩

/-- C9: the name InvalidOpError in the raise statement of simulate is
bound neither in the module nor among the builtins, so evaluating the
raise statement is a name-resolution failure: the abort on a bad op is
a NameError, not an instance of a distinguishable error class, as the
loop run on a concrete bad-op trace shows. -/
theorem invalid_op_raises_name_error :
    "InvalidOpError" ∉ module_top_level_names ++ python_builtin_names ∧
    raise_stmt "InvalidOpError" = PyError.nameError "InvalidOpError" ∧
    simulate_responses (fun (st : Unit) _ _ => (st, ⟨[], 0⟩))
        (fun st _ _ _ => (st, ⟨[], 0⟩)) () ["4 X"] =
      Except.error (PyError.nameError "InvalidOpError") :=
  ⟨by decide, by decide, rfl⟩

/-- Modelled from the spec: the block-offset part of the address
decomposition performed by the cache module (not among the given
sources); per the AddressDecoder contract, the address modulo the block
size. -/
def block_offset (address block_size : ℕ) : ℕ :=
  address % block_size

/-- Modelled from the spec: the set-index part of the address
decomposition, the address divided by the block size, modulo the number
of sets. -/
def set_index (address block_size num_sets : ℕ) : ℕ :=
  (address / block_size) % num_sets

/-- Modelled from the spec: the tag part of the address decomposition,
the address divided by the block size and then by the number of sets. -/
def tag_of (address block_size num_sets : ℕ) : ℕ :=
  address / block_size / num_sets

/-- C7: the address decomposition round-trip identity holds for every
address and every level geometry with positive block size and set
count: tag times sets times block size, plus set index times block
size, plus block offset, recomposes the address. -/
theorem address_decomposition_round_trip (a bs ns : ℕ)
    (hbs : 0 < bs) (hns : 0 < ns) :
    tag_of a bs ns * ns * bs + set_index a bs ns * bs + block_offset a bs = a := by
  rw [tag_of, set_index, block_offset]
  conv_rhs => rw [← Nat.div_add_mod a bs, ← Nat.div_add_mod (a / bs) ns]
  ring

/-- C7 witness: address 13 with block size 4 and 2 sets decomposes into
tag 1, set index 1, offset 1 and recomposes to 13. -/
theorem address_decomposition_round_trip_witness :
    0 < 4 ∧ 0 < 2 ∧
    tag_of 13 4 2 * 2 * 4 + set_index 13 4 2 * 4 + block_offset 13 4 = 13 :=
  ⟨by decide, by decide, address_decomposition_round_trip 13 4 2 (by decide) (by decide)⟩
